import Mathlib

/-!
Verification development for the wa-blaster campaign execution engine
(src/app.py).  The Python source is shallowly embedded: pure helpers become
Lean functions, the stateful Excel store becomes an explicit record threaded
through `perform_batch_update`, threads become sequential interpretation, and
the external Selenium executor becomes an abstract record of functions.
Machine floats do not appear in any claim-relevant code path; statuses are
plain Python ints, modelled as `Int`.
-/

namespace WABlaster

/-! ### Status values (CONFIG["STATUS_VALUES"], src/app.py lines 122-127) -/

def PENDING : Int := -1
def INVALID : Int := 0
def SENT : Int := 1
def RETRY : Int := 2

/-! ### Cells and `normalize_value` (src/app.py lines 193-198)

An Excel cell is blank (NaN), a number, or a string.  Python floats that are
integral are printed via `str(int(v))`; the modelled fragment restricts
numeric cells to integers, which covers every status value the program ever
writes. -/

inductive Cell where
  | blank : Cell
  | num (n : Int) : Cell
  | str (s : String) : Cell
deriving DecidableEq, Repr

def isPyWS (c : Char) : Bool :=
  c = ' ' || c = '\t' || c = '\n' || c = '\r'

/-- Python `str.strip()` on character lists (whitespace fragment restricted
to the four common ASCII whitespace characters). -/
def stripChars (l : List Char) : List Char :=
  ((l.dropWhile isPyWS).reverse.dropWhile isPyWS).reverse

def pyStrip (s : String) : String := String.mk (stripChars s.toList)

def normalize_value : Cell → String
  | Cell.blank => ""
  | Cell.num n => toString n
  | Cell.str s => pyStrip s

/-! ### Spintax (`parse_spintax`, src/app.py lines 294-300)

The regex is `\[([^{}\[\]]+?)\]`: a bracket group whose content is a
non-empty run of characters none of which is `{`, `}`, `[` or `]`.  Because
`]` is excluded from the content class, the non-greedy quantifier coincides
with the greedy one, and the leftmost match is found by scanning for the
first `[` that is followed by a non-empty allowed run ending at `]`.
`random.choice` is injected as a list of pick indices. -/

def isSpinChar (c : Char) : Bool :=
  !(c = '{' || c = '}' || c = '[' || c = ']')

/-- Leftmost regex match of `\[([^{}\[\]]+?)\]`: returns
(text before `[`, group content, text after `]`). -/
def findGroup : List Char → Option (List Char × List Char × List Char)
  | [] => none
  | c :: rest =>
    if c = '[' && !(rest.takeWhile isSpinChar).isEmpty &&
        ((rest.dropWhile isSpinChar).head? == some ']') then
      some ([], rest.takeWhile isSpinChar, (rest.dropWhile isSpinChar).tail)
    else
      (findGroup rest).map (fun pcs => (c :: pcs.1, pcs.2.1, pcs.2.2))

/-- `content.split("|")` on character lists: `splitPipe rest` is never empty,
so prepending `c` to its head is the usual split recursion. -/
def splitPipe : List Char → List (List Char)
  | [] => [[]]
  | c :: rest =>
    if c = '|' then [] :: splitPipe rest
    else (c :: (splitPipe rest).headD []) :: (splitPipe rest).tail

/-- One loop iteration of `parse_spintax`: replace the matched group by the
option selected by pick index `k` (`random.choice` injected). -/
def spinStep (k : Nat) (p content s : List Char) : List Char :=
  let options := (splitPipe content).map stripChars
  p ++ options.getD (k % options.length) [] ++ s

/-- The `while match := pattern.search(text)` loop, with explicit fuel. -/
def parse_spintax_fuel : Nat → List Nat → List Char → List Char
  | 0, _, t => t
  | n + 1, ks, t =>
    match findGroup t with
    | none => t
    | some pcs => parse_spintax_fuel n ks.tail (spinStep (ks.headD 0) pcs.1 pcs.2.1 pcs.2.2)

def bracketCount (t : List Char) : Nat := t.countP (fun c => c = '[')

/-- `parse_spintax` itself: the loop runs to fixpoint; `bracketCount t + 1`
units of fuel suffice (proved below). -/
def parse_spintax (ks : List Nat) (s : String) : String :=
  String.mk (parse_spintax_fuel (bracketCount s.toList + 1) ks s.toList)

/-! #### Spintax lemmas -/

theorem findGroup_eq (t : List Char) :
    ∀ p c s, findGroup t = some (p, c, s) →
      t = p ++ '[' :: (c ++ ']' :: s) ∧ c.all isSpinChar := by
  induction t with
  | nil => intro p c s h; simp [findGroup] at h
  | cons x rest ih =>
    intro p c s h
    simp only [findGroup] at h
    by_cases hx : (x = '[' && !(rest.takeWhile isSpinChar).isEmpty &&
        ((rest.dropWhile isSpinChar).head? == some ']')) = true
    · rw [if_pos hx] at h
      simp only [Bool.and_eq_true, decide_eq_true_eq, beq_iff_eq] at hx
      obtain ⟨⟨hxeq, _⟩, hx2⟩ := hx
      simp only [Option.some.injEq, Prod.mk.injEq] at h
      obtain ⟨hp, hc, hs⟩ := h
      subst hp hc hs hxeq
      constructor
      · simp only [List.nil_append, List.cons.injEq, true_and]
        have hsplit : rest.takeWhile isSpinChar ++ rest.dropWhile isSpinChar = rest :=
          List.takeWhile_append_dropWhile isSpinChar rest
        have hd : rest.dropWhile isSpinChar =
            ']' :: (rest.dropWhile isSpinChar).tail := by
          cases hdw : rest.dropWhile isSpinChar with
          | nil => rw [hdw] at hx2; simp at hx2
          | cons a as =>
            rw [hdw] at hx2
            simp only [List.head?_cons, Option.some.injEq] at hx2
            simp [hx2]
        conv_lhs => rw [← hsplit, hd]
      · have hmem : ∀ y ∈ rest.takeWhile isSpinChar, isSpinChar y := fun y hy =>
          List.mem_takeWhile_imp hy
        simp [List.all_eq_true, hmem]
    · rw [if_neg hx] at h
      rw [Option.map_eq_some'] at h
      obtain ⟨⟨p', c', s'⟩, hg, hf⟩ := h
      simp only [Prod.mk.injEq] at hf
      obtain ⟨hp, hc, hs⟩ := hf
      subst hp hc hs
      obtain ⟨ht, hall⟩ := ih p' c' s' hg
      exact ⟨by rw [ht]; simp, hall⟩

theorem stripChars_subset (l : List Char) : ∀ x ∈ stripChars l, x ∈ l := by
  intro x hx
  unfold stripChars at hx
  rw [List.mem_reverse] at hx
  have h2 := (List.dropWhile_sublist isPyWS).mem hx
  rw [List.mem_reverse] at h2
  exact (List.dropWhile_sublist isPyWS).mem h2

theorem splitPipe_ne_nil (l : List Char) : splitPipe l ≠ [] := by
  cases l with
  | nil => simp [splitPipe]
  | cons c rest =>
    simp only [splitPipe]
    by_cases hc : c = '|'
    · simp [hc]
    · rw [if_neg hc]; simp

theorem splitPipe_subset (l : List Char) :
    ∀ g ∈ splitPipe l, ∀ x ∈ g, x ∈ l := by
  induction l with
  | nil => intro g hg x hx; simp [splitPipe] at hg; subst hg; simp at hx
  | cons c rest ih =>
    intro g hg x hx
    simp only [splitPipe] at hg
    by_cases hc : c = '|'
    · rw [if_pos hc] at hg
      rcases List.mem_cons.mp hg with hg1 | hg1
      · subst hg1; simp at hx
      · exact List.mem_cons_of_mem _ (ih g hg1 x hx)
    · rw [if_neg hc] at hg
      rcases List.mem_cons.mp hg with hg1 | hg1
      · subst hg1
        rcases List.mem_cons.mp hx with hx1 | hx1
        · simp [hx1]
        · have hhead : (splitPipe rest).headD [] ∈ splitPipe rest := by
            cases hsp : splitPipe rest with
            | nil => exact absurd hsp (splitPipe_ne_nil rest)
            | cons g0 gs => simp
          exact List.mem_cons_of_mem _ (ih _ hhead x hx1)
      · have hmem2 : g ∈ splitPipe rest := (List.tail_sublist _).mem hg1
        exact List.mem_cons_of_mem _ (ih g hmem2 x hx)

/-- The option substituted by `spinStep` only contains characters of the
group content, hence no `[`. -/
theorem spinStep_option_subset (k : Nat) (content : List Char) :
    ∀ x ∈ ((splitPipe content).map stripChars).getD
        (k % ((splitPipe content).map stripChars).length) [],
      x ∈ content := by
  intro x hx
  set opts := (splitPipe content).map stripChars with hopts
  have hlen : 0 < opts.length := by
    rw [hopts, List.length_map]
    exact List.length_pos.mpr (splitPipe_ne_nil content)
  have hmem : opts.getD (k % opts.length) [] ∈ opts := by
    have hk : k % opts.length < opts.length := Nat.mod_lt _ hlen
    rw [List.getD_eq_getElem _ _ hk]
    exact List.getElem_mem hk
  rw [hopts, List.mem_map] at hmem
  obtain ⟨g, hg, hgeq⟩ := hmem
  rw [← hgeq] at hx
  exact splitPipe_subset content g hg x (stripChars_subset g x hx)

/-- Each loop iteration strictly decreases the number of `[` characters. -/
theorem spinStep_bracket_lt (t : List Char) (k : Nat) (p c s : List Char)
    (h : findGroup t = some (p, c, s)) :
    bracketCount (spinStep k p c s) < bracketCount t := by
  obtain ⟨ht, hall⟩ := findGroup_eq t p c s h
  have hopt : ∀ x ∈ ((splitPipe c).map stripChars).getD
      (k % ((splitPipe c).map stripChars).length) [], x ∈ c :=
    spinStep_option_subset k c
  have hczero : c.countP (fun x => x = '[') = 0 := by
    rw [List.countP_eq_zero]
    intro a ha
    have := List.all_eq_true.mp hall a ha
    simp only [isSpinChar, Bool.not_eq_true'] at this
    simp only [decide_eq_true_eq]
    intro hcon
    rw [hcon] at this
    simp at this
  have hozero : (((splitPipe c).map stripChars).getD
      (k % ((splitPipe c).map stripChars).length) []).countP (fun x => x = '[') = 0 := by
    rw [List.countP_eq_zero]
    intro a ha
    have hac := hopt a ha
    have h0 := List.countP_eq_zero.mp hczero a hac
    exact h0
  rw [ht]
  unfold spinStep bracketCount
  simp only [List.countP_append, List.countP_cons]
  rw [hczero, hozero]
  simp

/-- With fuel `bracketCount t + 1`, the loop reaches a string with no
remaining resolvable group. -/
theorem parse_spintax_fuel_terminates :
    ∀ fuel t ks, bracketCount t < fuel →
      findGroup (parse_spintax_fuel fuel ks t) = none := by
  intro fuel
  induction fuel with
  | zero => intro t ks h; omega
  | succ n ih =>
    intro t ks h
    simp only [parse_spintax_fuel]
    cases hg : findGroup t with
    | none => exact hg
    | some pcs =>
      obtain ⟨p, c, s⟩ := pcs
      dsimp only
      apply ih
      have := spinStep_bracket_lt t (ks.headD 0) p c s hg
      omega

/-- C9: spintax resolution terminates with no resolvable group remaining,
because each iteration strictly decreases the `[`-count. -/
theorem parse_spintax_no_group (ks : List Nat) (s : String) :
    findGroup (parse_spintax ks s).toList = none := by
  unfold parse_spintax
  show findGroup (parse_spintax_fuel (bracketCount s.toList + 1) ks s.toList) = none
  exact parse_spintax_fuel_terminates _ _ _ (Nat.lt_succ_self _)

/-- If the text has no resolvable group, `parse_spintax` leaves it unchanged. -/
theorem parse_spintax_fixpoint (ks : List Nat) (s : String)
    (h : findGroup s.toList = none) : parse_spintax ks s = s := by
  unfold parse_spintax
  show String.mk (parse_spintax_fuel (bracketCount s.toList + 1) ks s.toList) = s
  have h' : findGroup s.data = none := h
  show String.mk (parse_spintax_fuel (bracketCount s.data + 1) ks s.data) = s
  simp only [parse_spintax_fuel, h']

/-! ### URL transport encoding (`urllib.parse.unquote_plus` / `quote_plus`)

`personalize_message` decodes the template with `unquote_plus` and re-encodes
the result with `quote_plus`.  Modelled fragment: `+` becomes a space, `%HH`
with `HH < 0x80` becomes the corresponding ASCII character, an invalid escape
is kept literally, and a `%HH` escape with `HH ≥ 0x80` becomes U+FFFD (Python
UTF-8-decodes the percent-decoded byte string with `errors="replace"`; the
model is faithful for isolated high bytes but does not reassemble multi-byte
UTF-8 escape sequences).  Encoding keeps Python's unreserved set
(ASCII alphanumerics and `_.-~`), maps a space to `+`, and percent-encodes
every other character's UTF-8 bytes with uppercase hex. -/

def hexVal (c : Char) : Option Nat :=
  if c.isDigit then some (c.toNat - 48)
  else if 'A' ≤ c ∧ c ≤ 'F' then some (c.toNat - 55)
  else if 'a' ≤ c ∧ c ≤ 'f' then some (c.toNat - 87)
  else none

def hexDigit (n : Nat) : Char :=
  if n < 10 then Char.ofNat (48 + n) else Char.ofNat (55 + n)

def utf8Bytes (n : Nat) : List Nat :=
  if n < 0x80 then [n]
  else if n < 0x800 then [0xC0 + n / 64, 0x80 + n % 64]
  else if n < 0x10000 then [0xE0 + n / 4096, 0x80 + n / 64 % 64, 0x80 + n % 64]
  else [0xF0 + n / 262144, 0x80 + n / 4096 % 64, 0x80 + n / 64 % 64, 0x80 + n % 64]

def unquote_plus_chars : List Char → List Char
  | [] => []
  | '+' :: rest => ' ' :: unquote_plus_chars rest
  | '%' :: h1 :: h2 :: rest =>
    match hexVal h1, hexVal h2 with
    | some a, some b =>
      (if a * 16 + b < 0x80 then Char.ofNat (a * 16 + b) else Char.ofNat 0xFFFD)
        :: unquote_plus_chars rest
    | _, _ => '%' :: unquote_plus_chars (h1 :: h2 :: rest)
  | c :: rest => c :: unquote_plus_chars rest

def unquote_plus (s : String) : String := String.mk (unquote_plus_chars s.toList)

def isUnreserved (c : Char) : Bool :=
  c.isAlphanum || c = '_' || c = '.' || c = '-' || c = '~'

def quote_plus_char (c : Char) : List Char :=
  if isUnreserved c then [c]
  else if c = ' ' then ['+']
  else ((utf8Bytes c.toNat).map (fun b => ['%', hexDigit (b / 16), hexDigit (b % 16)])).flatten

def quote_plus (s : String) : String :=
  String.mk ((s.toList.map quote_plus_char).flatten)

/-! ### Python `str.format` fragment (used by `personalize_message`)

`personalize_message` calls `decoded_template.format(**format_data)`.  The
modelled fragment covers literal text, `{{`/`}}` escapes and simple
`{keyword}` fields.  A field containing `:`/`!`/`.`/`[`/`]` (conversion,
format spec, attribute or index access), an empty or all-digit field
(positional argument lookup), an unterminated field or a stray `}` raises an
exception other than a plain `KeyError`; all of those are folded into
`FmtResult.err`, matching the source's generic `except Exception` fallback
(which returns the decoded template unchanged).  A simple field whose keyword
is absent from the data raises `KeyError` at the first such field scanned
left to right: `FmtResult.missingKey`. -/

inductive FmtResult where
  | ok (s : List Char) : FmtResult
  | missingKey (k : String) : FmtResult
  | err : FmtResult
deriving DecidableEq, Repr

def FmtResult.consC (c : Char) : FmtResult → FmtResult
  | FmtResult.ok s => FmtResult.ok (c :: s)
  | r => r

def FmtResult.prepend (v : List Char) : FmtResult → FmtResult
  | FmtResult.ok s => FmtResult.ok (v ++ s)
  | r => r

def isNameChar (c : Char) : Bool :=
  !(c = '{' || c = '}' || c = ':' || c = '!' || c = '.' || c = '[' || c = ']')

/-- Parser mode for the modelled `str.format` fragment: scanning literal
text, just after a literal `}` (only `}}` is legal there), or inside a
`{...}` field whose name so far is `acc` reversed (`{` with an empty `acc`
is the `{{` escape). -/
inductive FmtMode where
  | top : FmtMode
  | rbrace : FmtMode
  | field (acc : List Char) : FmtMode

/-- One-pass scanner for the modelled `str.format` fragment.  A completed
simple field looks its keyword up in `data`; a missing keyword raises
`KeyError` (`missingKey`); everything outside the fragment (stray braces,
conversion/format specs, attribute or index access, positional fields)
raises some other exception, collapsed to `err`. -/
def pyFormatGo (data : String → Option String) : FmtMode → List Char → FmtResult
  | FmtMode.top, [] => FmtResult.ok []
  | FmtMode.rbrace, [] => FmtResult.err
  | FmtMode.field _, [] => FmtResult.err
  | FmtMode.top, c :: rest =>
    if c = '{' then pyFormatGo data (FmtMode.field []) rest
    else if c = '}' then pyFormatGo data FmtMode.rbrace rest
    else FmtResult.consC c (pyFormatGo data FmtMode.top rest)
  | FmtMode.rbrace, c :: rest =>
    if c = '}' then FmtResult.consC '}' (pyFormatGo data FmtMode.top rest)
    else FmtResult.err
  | FmtMode.field acc, c :: rest =>
    if acc.isEmpty && c = '{' then FmtResult.consC '{' (pyFormatGo data FmtMode.top rest)
    else if c = '}' then
      if acc.reverse.isEmpty || acc.reverse.all Char.isDigit then FmtResult.err
      else
        match data (String.mk acc.reverse) with
        | some v => FmtResult.prepend v.toList (pyFormatGo data FmtMode.top rest)
        | none => FmtResult.missingKey (String.mk acc.reverse)
    else if isNameChar c then pyFormatGo data (FmtMode.field (c :: acc)) rest
    else FmtResult.err

def pyFormat (data : String → Option String) (l : List Char) : FmtResult :=
  pyFormatGo data FmtMode.top l

/-- Python `str.replace`: replace all non-overlapping occurrences of `pat`
left to right (callers always pass a non-empty pattern, so fuel equal to the
string length suffices and the function is total). -/
def replaceFuel : Nat → List Char → List Char → List Char → List Char
  | 0, s, _, _ => s
  | _ + 1, [], _, _ => []
  | n + 1, c :: rest, pat, rep =>
    if pat.isPrefixOf (c :: rest) then
      rep ++ replaceFuel n ((c :: rest).drop pat.length) pat rep
    else c :: replaceFuel n rest pat rep

def pyReplace (s pat rep : String) : String :=
  String.mk (replaceFuel s.toList.length s.toList pat.toList rep.toList)

/-- `wfTemplate` holds for templates made of literal non-brace text and
simple `{keyword}` fields (keyword non-empty, not all digits, no
conversion/format-spec/attribute characters, no `{{`/`}}` escapes).  On this
fragment Python's `str.format` performs exactly keyword substitution. -/
def wfTemplateGo : Option (List Char) → List Char → Bool
  | none, [] => true
  | some _, [] => false
  | none, c :: rest =>
    if c = '{' then wfTemplateGo (some []) rest
    else if c = '}' then false
    else wfTemplateGo none rest
  | some acc, c :: rest =>
    if c = '}' then
      !acc.reverse.isEmpty && !(acc.reverse.all Char.isDigit) && wfTemplateGo none rest
    else if isNameChar c then wfTemplateGo (some (c :: acc)) rest
    else false

def wfTemplate (l : List Char) : Bool := wfTemplateGo none l

/-- The keywords of the `{keyword}` fields of a template, in scan order
(meaningful on the `wfTemplate` fragment). -/
def keywordsTGo : Option (List Char) → List Char → List String
  | _, [] => []
  | none, c :: rest =>
    if c = '{' then keywordsTGo (some []) rest else keywordsTGo none rest
  | some acc, c :: rest =>
    if c = '}' then String.mk acc.reverse :: keywordsTGo none rest
    else if isNameChar c then keywordsTGo (some (c :: acc)) rest
    else keywordsTGo none rest

def keywordsT (l : List Char) : List String := keywordsTGo none l

/-- Modelled from the spec: "Substitutes every `{keyword}` occurrence using
`fieldValues[keyword]`; a missing keyword is replaced by the empty string".
This is the comparison point for the claims about `personalize_message`'s
substitution behaviour, not a transcription of the source. -/
def specSubstAllGo (data : String → Option String) : Option (List Char) → List Char → List Char
  | none, [] => []
  | some acc, [] => '{' :: acc.reverse
  | none, c :: rest =>
    if c = '{' then specSubstAllGo data (some []) rest
    else c :: specSubstAllGo data none rest
  | some acc, c :: rest =>
    if c = '}' then
      ((data (String.mk acc.reverse)).getD "").toList ++ specSubstAllGo data none rest
    else if isNameChar c then specSubstAllGo data (some (c :: acc)) rest
    else ('{' :: acc.reverse) ++ c :: specSubstAllGo data none rest

def specSubstAll (data : String → Option String) (l : List Char) : List Char :=
  specSubstAllGo data none l

/-- The `format_data` dictionary built by `personalize_message`: for each
custom-placeholder keyword, the normalized value of the contact's cell under
the LIST header that the PLACEHOLDER sheet maps the keyword to
(`contact_details.get(list_header, "")`). -/
def format_data (contact : List (String × Cell))
    (customPh : List (String × String)) : String → Option String :=
  fun k =>
    (customPh.lookup k).map
      (fun hdr => normalize_value ((contact.lookup hdr).getD (Cell.str "")))

/-- `personalize_message` (src/app.py lines 302-342).  `contact` stands for
`contact_details` (the contact's row, header → cell) and `customPh` for
`custom_placeholders` (keyword → LIST column header); `ks` injects the random
spintax picks.  The `except KeyError` fallback removes every occurrence of
the first missing placeholder from the *unformatted* decoded template; the
generic `except Exception` fallback keeps the decoded template unchanged. -/
def personalize_message (ks : List Nat) (encoded_template : String)
    (contact : List (String × Cell)) (customPh : List (String × String)) : String :=
  if encoded_template = "" then ""
  else
    let decoded_template := unquote_plus encoded_template
    let personalized : String :=
      match pyFormat (format_data contact customPh) decoded_template.toList with
      | FmtResult.ok s => String.mk s
      | FmtResult.missingKey k => pyReplace decoded_template ("\x7b" ++ k ++ "\x7d") ""
      | FmtResult.err => decoded_template
    quote_plus (parse_spintax ks personalized)

/-- Modelled from the spec, for comparison with `personalize_message`:
decode, substitute every placeholder (missing keyword becomes the empty
string), resolve spintax, re-encode. -/
def renderSpec (ks : List Nat) (encoded_template : String)
    (contact : List (String × Cell)) (customPh : List (String × String)) : String :=
  if encoded_template = "" then ""
  else
    let decoded_template := unquote_plus encoded_template
    quote_plus (parse_spintax ks
      (String.mk (specSubstAll (format_data contact customPh) decoded_template.toList)))

/-! #### Formatting lemmas -/

def toFmtMode : Option (List Char) → FmtMode
  | none => FmtMode.top
  | some acc => FmtMode.field acc

/-- On a well-formed template whose keywords are all present in the data,
the modelled `str.format` succeeds and performs exactly the substitution the
spec describes. -/
theorem pyFormatGo_wf_ok (data : String → Option String) (t : List Char) :
    ∀ m : Option (List Char), wfTemplateGo m t = true →
      (∀ k ∈ keywordsTGo m t, (data k).isSome) →
      pyFormatGo data (toFmtMode m) t = FmtResult.ok (specSubstAllGo data m t) := by
  induction t with
  | nil =>
    intro m hwf _
    cases m with
    | none => rfl
    | some acc => simp [wfTemplateGo] at hwf
  | cons c rest ih =>
    intro m hwf hk
    cases m with
    | none =>
      by_cases hc : c = '{'
      · subst hc
        simp only [wfTemplateGo, if_pos rfl] at hwf
        simp only [keywordsTGo, if_pos rfl] at hk
        simp only [toFmtMode, pyFormatGo, if_pos rfl, specSubstAllGo]
        exact ih (some []) hwf hk
      · by_cases hc2 : c = '}'
        · subst hc2
          simp [wfTemplateGo, hc] at hwf
        · simp only [wfTemplateGo, if_neg hc, if_neg hc2] at hwf
          simp only [keywordsTGo, if_neg hc] at hk
          simp only [toFmtMode, pyFormatGo, if_neg hc, if_neg hc2, specSubstAllGo]
          have ihn := ih none hwf hk
          simp only [toFmtMode] at ihn
          rw [ihn]
          rfl
    | some acc =>
      by_cases hc : c = '}'
      · subst hc
        rw [show wfTemplateGo (some acc) ('}' :: rest) =
            (!acc.reverse.isEmpty && !(acc.reverse.all Char.isDigit) &&
              wfTemplateGo none rest) from by simp [wfTemplateGo]] at hwf
        simp only [Bool.and_eq_true] at hwf
        obtain ⟨⟨hne, hnd⟩, hwf'⟩ := hwf
        simp only [Bool.not_eq_eq_eq_not, Bool.not_true] at hne hnd
        rw [show keywordsTGo (some acc) ('}' :: rest) =
            String.mk acc.reverse :: keywordsTGo none rest from by
          simp [keywordsTGo]] at hk
        have hkey : (data (String.mk acc.reverse)).isSome :=
          hk _ (List.mem_cons_self _ _)
        simp only [toFmtMode]
        rw [show pyFormatGo data (FmtMode.field acc) ('}' :: rest) =
            (if acc.reverse.isEmpty || acc.reverse.all Char.isDigit then FmtResult.err
             else
               match data (String.mk acc.reverse) with
               | some v => FmtResult.prepend v.toList (pyFormatGo data FmtMode.top rest)
               | none => FmtResult.missingKey (String.mk acc.reverse)) from by
          simp [pyFormatGo]]
        rw [show specSubstAllGo data (some acc) ('}' :: rest) =
            ((data (String.mk acc.reverse)).getD "").toList ++
              specSubstAllGo data none rest from by
          simp [specSubstAllGo]]
        rw [if_neg (by simp [hne, hnd])]
        cases hd : data (String.mk acc.reverse) with
        | none => rw [hd] at hkey; simp at hkey
        | some v =>
          have ihn := ih none hwf' (fun k hm => hk k (List.mem_cons_of_mem _ hm))
          simp only [toFmtMode] at ihn
          rw [ihn]
          simp [FmtResult.prepend, hd]
      · by_cases hn : isNameChar c = true
        · have hcl : ¬ c = '{' := by
            intro hcon; rw [hcon] at hn; simp [isNameChar] at hn
          simp only [wfTemplateGo, if_neg hc, if_pos hn] at hwf
          simp only [keywordsTGo, if_neg hc, if_pos hn] at hk
          simp only [toFmtMode, pyFormatGo, specSubstAllGo, if_neg hc, if_pos hn]
          rw [if_neg (by simp [hcl])]
          exact ih (some (c :: acc)) hwf hk
        · simp [wfTemplateGo, hc, hn] at hwf

/-- A template containing no brace at all formats to itself. -/
theorem pyFormatGo_top_nobraces (data : String → Option String) (t : List Char)
    (h : ∀ c ∈ t, ¬ c = '{' ∧ ¬ c = '}') :
    pyFormatGo data FmtMode.top t = FmtResult.ok t := by
  induction t with
  | nil => rfl
  | cons c rest ih =>
    obtain ⟨hc1, hc2⟩ := h c (List.mem_cons_self _ _)
    simp only [pyFormatGo, if_neg hc1, if_neg hc2]
    rw [ih (fun x hx => h x (List.mem_cons_of_mem _ hx))]
    rfl

/-! #### C2 and C6: the personalization claims -/

/-- C2, counterexample: the claim says every placeholder with a present
keyword is substituted and every missing-keyword placeholder becomes the
empty string.  On template `{b}{a}` with `a ↦ "X"` and `b` unmapped the
source raises `KeyError('b')`, removes only `{b}` from the *unformatted*
template and returns the rest unsubstituted: the result is the encoding of
`{a}`, not the claimed `X` (computed by the spec-modelled `renderSpec`). -/
theorem personalize_missing_key_cex :
    personalize_message [] "{b}{a}" [("ColA", Cell.str "X")] [("a", "ColA")] = "%7Ba%7D" ∧
    renderSpec [] "{b}{a}" [("ColA", Cell.str "X")] [("a", "ColA")] = "X" ∧
    personalize_message [] "{b}{a}" [("ColA", Cell.str "X")] [("a", "ColA")] ≠
      renderSpec [] "{b}{a}" [("ColA", Cell.str "X")] [("a", "ColA")] := by
  refine ⟨by decide, by decide, by decide⟩

/-- C2, amended: `personalize_message` never raises (it is total), and when
*every* placeholder keyword of the (well-formed) decoded template is present
in the field mapping it substitutes each `{keyword}` by its value exactly as
the spec describes (`renderSpec`).  When a keyword is missing, only the
first missing placeholder is removed and the remaining template is left
unsubstituted (shown by `personalize_missing_key_cex`). -/
theorem personalize_message_all_keys (ks : List Nat) (t : String)
    (contact : List (String × Cell)) (ph : List (String × String))
    (hne : ¬ t = "")
    (hwf : wfTemplate (unquote_plus t).toList = true)
    (hkeys : ∀ k ∈ keywordsT (unquote_plus t).toList,
      (format_data contact ph k).isSome) :
    personalize_message ks t contact ph = renderSpec ks t contact ph := by
  unfold personalize_message renderSpec
  rw [if_neg hne, if_neg hne]
  have hok := pyFormatGo_wf_ok (format_data contact ph) (unquote_plus t).toList
    none hwf hkeys
  show quote_plus (parse_spintax ks
      (match pyFormat (format_data contact ph) (unquote_plus t).toList with
        | FmtResult.ok s => String.mk s
        | FmtResult.missingKey k => pyReplace (unquote_plus t) ("\x7b" ++ k ++ "\x7d") ""
        | FmtResult.err => unquote_plus t)) = _
  rw [show pyFormat (format_data contact ph) (unquote_plus t).toList =
      FmtResult.ok (specSubstAll (format_data contact ph) (unquote_plus t).toList)
    from hok]

theorem personalize_message_all_keys_w :
    personalize_message [] "{a}" [("ColA", Cell.str "X")] [("a", "ColA")] =
      renderSpec [] "{a}" [("ColA", Cell.str "X")] [("a", "ColA")] :=
  personalize_message_all_keys [] "{a}" [("ColA", Cell.str "X")] [("a", "ColA")]
    (by decide) (by decide) (by decide)

/-- C6, counterexample: for the placeholder-free, spintax-free template
`"+"`, `decode("+") = " "` but `render` re-encodes and returns `"+"`, so
`render(t, *) = decode(t)` fails: re-encoding is not the identity. -/
theorem personalize_decode_cex :
    personalize_message [] "+" [] [] = "+" ∧ unquote_plus "+" = " " ∧
    personalize_message [] "+" [] [] ≠ unquote_plus "+" := by
  refine ⟨by decide, by decide, by decide⟩

/-- C6, amended: for every non-empty template whose decoding contains no
brace and no resolvable spintax group, and for every field mapping,
`personalize_message` returns the *re-encoding* of the decoded template,
`quote_plus (unquote_plus t)` — equal to `decode(t)` only when every decoded
character survives encoding unchanged. -/
theorem personalize_message_literal_template (ks : List Nat) (t : String)
    (contact : List (String × Cell)) (ph : List (String × String))
    (hne : ¬ t = "")
    (hnb : ∀ c ∈ (unquote_plus t).toList, ¬ c = '{' ∧ ¬ c = '}')
    (hns : findGroup (unquote_plus t).toList = none) :
    personalize_message ks t contact ph = quote_plus (unquote_plus t) := by
  unfold personalize_message
  rw [if_neg hne]
  show quote_plus (parse_spintax ks
      (match pyFormat (format_data contact ph) (unquote_plus t).toList with
        | FmtResult.ok s => String.mk s
        | FmtResult.missingKey k => pyReplace (unquote_plus t) ("\x7b" ++ k ++ "\x7d") ""
        | FmtResult.err => unquote_plus t)) = _
  rw [show pyFormat (format_data contact ph) (unquote_plus t).toList =
      FmtResult.ok (unquote_plus t).toList
    from pyFormatGo_top_nobraces _ _ hnb]
  show quote_plus (parse_spintax ks (String.mk (unquote_plus t).toList)) = _
  rw [show String.mk (unquote_plus t).toList = unquote_plus t from rfl,
    parse_spintax_fixpoint ks _ hns]

theorem personalize_message_literal_template_w :
    personalize_message [7] "Hello%20x" [] [] = quote_plus (unquote_plus "Hello%20x") :=
  personalize_message_literal_template [7] "Hello%20x" [] []
    (by decide) (by decide) (by decide)

/-- C9: spintax resolution terminates: each loop iteration replaces one
bracket group (whose content has no bracket or brace characters) by one of
its options (which contains no bracket), strictly decreasing the number of
`[` characters, and the returned string has no resolvable `[...]` group
left. -/
theorem parse_spintax_terminates (ks : List Nat) (s : String) :
    findGroup (parse_spintax ks s).toList = none ∧
    (∀ k p c tail, findGroup s.toList = some (p, c, tail) →
      bracketCount (spinStep k p c tail) < bracketCount s.toList) :=
  ⟨parse_spintax_no_group ks s,
   fun k p c tail h => spinStep_bracket_lt s.toList k p c tail h⟩

theorem parse_spintax_terminates_w :
    bracketCount (spinStep 1 [] ['a', '|', 'b'] []) < bracketCount "[a|b]".toList :=
  (parse_spintax_terminates [1] "[a|b]").2 1 [] ['a', '|', 'b'] [] (by decide)

/-! ### Excel sheets, the contact loader and phase eligibility
(CONFIG sheet/column names, `ExcelDataLoader._load_contacts_from_sheet`,
`WhatsAppBlasterGUI._processing_runner`) -/

def LIST_SHEET : String := "LIST"
def PHONE_COL : String := "Phone Number"
def MSG_COL : String := "Message Code"
def DOC_COL : String := "Document Code"
def MEDIA_COL : String := "Media Code"
def STATUS_COL : String := "Status"

structure Sheet where
  headers : List String
  rows : List (List Cell)
deriving DecidableEq, Repr

/-- `headers.index(name)` (first occurrence), as `Option`. -/
def colIdx : List String → String → Option Nat
  | [], _ => none
  | h :: hs, name => if h = name then some 0 else (colIdx hs name).map (· + 1)

/-- `sheet.cell(row, col)`: openpyxl cells in the used grid always exist,
out-of-range reads in the model give a blank cell. -/
def getCell (r : List Cell) (i : Nat) : Cell := r.getD i Cell.blank

def digitsVal (l : List Char) : Nat :=
  l.foldl (fun a c => 10 * a + (c.toNat - 48)) 0

/-- `pd.to_numeric(s, errors="coerce")` on a stripped character string,
restricted to plain decimal literals with optional sign and fraction (the
fractional part is truncated toward zero as `astype(int)` does); exponent
notation and other numeric spellings are outside the modelled fragment. -/
def to_numeric_chars (l : List Char) : Option Int :=
  let sl : Int × List Char :=
    match l with
    | '-' :: r => (-1, r)
    | '+' :: r => (1, r)
    | r => (1, r)
  let ip := sl.2.takeWhile (fun c => !(c = '.'))
  let rest := sl.2.dropWhile (fun c => !(c = '.'))
  if !ip.all Char.isDigit then none
  else
    match rest with
    | [] => if ip.isEmpty then none else some (sl.1 * (digitsVal ip : Int))
    | _ :: fp =>
      if fp.all Char.isDigit && !(ip.isEmpty && fp.isEmpty) then
        some (sl.1 * (digitsVal ip : Int))
      else none

def to_numeric : Cell → Option Int
  | Cell.blank => none
  | Cell.num n => some n
  | Cell.str s => to_numeric_chars (stripChars s.toList)

structure Contact where
  phone : String
  msgCode : String
  docCode : String
  mediaCode : String
  status : Int
deriving DecidableEq, Repr

/-- Status of a loaded row: a missing Status column defaults the whole
column to `PENDING`; otherwise `pd.to_numeric(..., errors="coerce")`
followed by `fillna(PENDING)`. -/
def rowStatus (sIdx : Option Nat) (r : List Cell) : Int :=
  match sIdx with
  | none => PENDING
  | some i => (to_numeric (getCell r i)).getD PENDING

def parseRow (pI mI dI meI : Nat) (sIdx : Option Nat) (r : List Cell) : Contact :=
  { phone := normalize_value (getCell r pI)
    msgCode := normalize_value (getCell r mI)
    docCode := normalize_value (getCell r dI)
    mediaCode := normalize_value (getCell r meI)
    status := rowStatus sIdx r }

/-- `ExcelDataLoader._load_contacts_from_sheet`: the four required columns
must exist (a missing one raises and yields no contacts, modelled `none`);
phone and code cells are normalized; the status column is parsed by
`rowStatus`. -/
def load_contacts (sh : Sheet) : Option (List Contact) :=
  match colIdx sh.headers PHONE_COL, colIdx sh.headers MSG_COL,
      colIdx sh.headers DOC_COL, colIdx sh.headers MEDIA_COL with
  | some pI, some mI, some dI, some meI =>
    some (sh.rows.map (parseRow pI mI dI meI (colIdx sh.headers STATUS_COL)))
  | _, _, _, _ => none

/-- Initial-phase eligibility (`contacts_df_full[status].isin([PENDING, RETRY])`,
src/app.py line 1911). -/
def eligibleInitialB (c : Contact) : Bool :=
  c.status == PENDING || c.status == RETRY

def initialEligible (contacts : List Contact) : List Contact :=
  contacts.filter eligibleInitialB

/-- Retry-phase eligibility (`contacts_df_for_retry_full[status] == RETRY`,
src/app.py line 1931). -/
def retryEligible (contacts : List Contact) : List Contact :=
  contacts.filter (fun c => c.status == RETRY)

/-! ### The status ledger (`final_statuses` dict) -/

/-- The in-memory status ledger: association list with shadowing writes,
`lookup` sees the newest binding (Python dict assignment). -/
abbrev Ledger := List (String × Int)

def ledgerSet (led : Ledger) (k : String) (v : Int) : Ledger := (k, v) :: led

/-! ### Advisory lock and batch persistence
(`is_file_locked`, `release_lock`, `perform_batch_update`,
src/app.py lines 200-291) -/

/-- The external Excel store: an optional lock-marker (its mtime), the
workbook, and two failure switches — `corrupt` makes `load_workbook` raise
`InvalidFileException`, `failGeneric` makes the update/save step raise a
generic exception (e.g. an I/O error on `wb.save`). -/
structure ExcelStore where
  lock : Option Nat
  sheets : List (String × Sheet)
  corrupt : Bool
  failGeneric : Bool
deriving DecidableEq, Repr

/-- `is_file_locked` (src/app.py lines 202-221): a marker older than 60
time units is stale and removed (acquisition proceeds without re-creating
it); a younger marker reports locked; no marker creates one (`open(.., "x")`)
and reports unlocked. -/
def is_file_locked (t : Nat) (st : ExcelStore) : Bool × ExcelStore :=
  match st.lock with
  | some m => if t - m > 60 then (false, { st with lock := none }) else (true, st)
  | none => (false, { st with lock := some t })

/-- `release_lock` (src/app.py lines 223-229): unlink the marker if present. -/
def release_lock (st : ExcelStore) : ExcelStore := { st with lock := none }

def getSheet (st : ExcelStore) (name : String) : Option Sheet :=
  st.sheets.lookup name

def setSheet (st : ExcelStore) (name : String) (sh : Sheet) : ExcelStore :=
  { st with sheets := (name, sh) :: st.sheets }

/-- One row of the in-place status update: a row whose normalized phone
cell is a ledger key gets the ledger value written into its status cell. -/
def updateRow (m : Ledger) (pI sI : Nat) (r : List Cell) : List Cell :=
  match m.lookup (normalize_value (getCell r pI)) with
  | some v => r.set sI (Cell.num v)
  | none => r

def applyUpdates (m : Ledger) (pI sI : Nat) (sh : Sheet) : Sheet :=
  { sh with rows := sh.rows.map (updateRow m pI sI) }

/-- The retry loop of `perform_batch_update` with `max_attempts` as fuel and
an explicit clock advancing by `retry_delay = 2` on every sleep.  On a
generic exception at a non-final attempt the code sleeps and retries
*without releasing the marker it created*; the next attempt then finds its
own young marker. -/
def perform_batch_update_go (m : Ledger) : Nat → Nat → ExcelStore → Bool × ExcelStore
  | 0, _, st => (false, st)
  | fuel + 1, t, st =>
    match is_file_locked t st with
    | (true, st1) => perform_batch_update_go m fuel (t + 2) st1
    | (false, st1) =>
      if st1.corrupt then (false, release_lock st1)
      else
        match getSheet st1 LIST_SHEET with
        | none => (false, release_lock st1)
        | some sheet =>
          match colIdx sheet.headers PHONE_COL, colIdx sheet.headers STATUS_COL with
          | some pI, some sI =>
            if st1.failGeneric then
              if 0 < fuel then perform_batch_update_go m fuel (t + 2) st1
              else (false, release_lock st1)
            else
              (true, release_lock (setSheet st1 LIST_SHEET (applyUpdates m pI sI sheet)))
          | _, _ => (false, release_lock st1)

/-- `perform_batch_update` (src/app.py lines 232-291): no-op success on an
empty map, otherwise up to 3 attempts. -/
def perform_batch_update (t : Nat) (st : ExcelStore) (m : Ledger) : Bool × ExcelStore :=
  if m.isEmpty then (true, st) else perform_batch_update_go m 3 t st

/-! ### Worker lane: `process_contact` (src/app.py lines 1330-1498)

The Selenium boundary (`send_text_message`, `attach_and_send_files`) is the
external action executor: an abstract record of total functions.  The
cooperative cancellation flag is injected as the four
`stop_event.is_set()` observations the function makes; `none` means the
function returned without recording a status (the pre-registered ledger
default stands). -/

inductive SendRes where
  | sent : SendRes
  | failed : SendRes
  | invalid : SendRes
deriving DecidableEq, Repr

structure Executor where
  sendText : String → String → SendRes
  attach : String → List String → String → Bool

structure StopChecks where
  s0 : Bool
  s1 : Bool
  s2 : Bool
  s3 : Bool
deriving DecidableEq, Repr

def process_contact (ex : Executor) (stops : StopChecks) (c : Contact)
    (messages_map : List (String × String)) (docs_map media_map : List (String × List String)) :
    Option (String × Int) :=
  if stops.s0 then none
  else if c.phone = "" then none
  else
    let msg_code := c.msgCode
    let doc_code := c.docCode
    let media_code := c.mediaCode
    let message_template := if msg_code ≠ "0" then messages_map.lookup msg_code else none
    let doc_files := if doc_code ≠ "0" then docs_map.lookup doc_code else none
    let media_files := if media_code ≠ "0" then media_map.lookup media_code else none
    let has_message : Bool := msg_code ≠ "0" ∧ ¬ message_template.getD "" = ""
    let has_docs : Bool := doc_code ≠ "0" ∧ ¬ (doc_files.getD []).isEmpty
    let has_media : Bool := media_code ≠ "0" ∧ ¬ (media_files.getD []).isEmpty
    let status0 : Int :=
      if msg_code ≠ "0" ∧ (messages_map.lookup msg_code).isNone then INVALID
      else if doc_code ≠ "0" ∧ (docs_map.lookup doc_code).isNone then INVALID
      else if media_code ≠ "0" ∧ (media_map.lookup media_code).isNone then INVALID
      else if ¬ (has_message || has_docs || has_media) = true then SENT
      else RETRY
    if ¬ status0 = RETRY then some (c.phone, status0)
    else
      let afterSend : Option (Option SendRes × Int × Bool × Bool) :=
        if has_message then
          let res := ex.sendText c.phone (message_template.getD "")
          if stops.s1 then none
          else
            match res with
            | SendRes.invalid => some (some res, INVALID, false, false)
            | SendRes.failed => some (some res, RETRY, false, false)
            | SendRes.sent => some (some res, RETRY, true, true)
        else some (none, RETRY, true, true)
      match afterSend with
      | none => none
      | some (msgStatus, status1, docs_sent0, media_sent0) =>
        let afterDocs : Option (Int × Bool × Bool) :=
          if has_docs && docs_sent0 then
            let valid := doc_files.getD []
            let ds := if ¬ valid.isEmpty then ex.attach c.phone valid "DOCS" else true
            if stops.s2 then none
            else if ds then some (status1, true, media_sent0)
            else some (RETRY, false, false)
          else some (status1, docs_sent0, media_sent0)
        match afterDocs with
        | none => none
        | some (status2, docs_sent, media_sent1) =>
          let afterMedia : Option (Int × Bool) :=
            if has_media && media_sent1 then
              let valid := media_files.getD []
              let ms := if ¬ valid.isEmpty then ex.attach c.phone valid "MEDIA" else true
              if stops.s3 then none
              else if ms then some (status2, true)
              else some (RETRY, false)
            else some (status2, media_sent1)
          match afterMedia with
          | none => none
          | some (status3, media_sent) =>
            let finalStatus : Int :=
              if ¬ msgStatus = some SendRes.failed ∧ docs_sent = true ∧
                  media_sent = true ∧ status3 = RETRY then SENT
              else status3
            some (c.phone, finalStatus)

/-! ### Lane assignment and phase run (`WhatsAppBlasterGUI._run_phase`,
src/app.py lines 1964-2031)

Round-robin assignment over the two lanes with fallback to the live one;
every contact of the batch is pre-registered `RETRY` in the ledger during
the assignment loop, before the worker threads are started.  The workers
are interpreted sequentially (lane 1's queue, then lane 2's); the claims
proved here do not depend on the interleaving. -/

def assignContacts (d1 d2 : Bool) : Nat → List Contact → Ledger →
    List Contact × List Contact × Ledger
  | _, [], led => ([], [], led)
  | i, c :: cs, led =>
    let led1 := ledgerSet led c.phone RETRY
    let res := assignContacts d1 d2 (i + 1) cs led1
    if i % 2 = 0 && d1 then (c :: res.1, res.2.1, res.2.2)
    else if d2 then (res.1, c :: res.2.1, res.2.2)
    else if d1 then (c :: res.1, res.2.1, res.2.2)
    else res

def workerLoop (ex : Executor) (stops : StopChecks)
    (msgs : List (String × String)) (docs media : List (String × List String)) :
    List Contact → Ledger → Ledger
  | [], led => led
  | c :: cs, led =>
    match process_contact ex stops c msgs docs media with
    | some ps => workerLoop ex stops msgs docs media cs (ledgerSet led ps.1 ps.2)
    | none => workerLoop ex stops msgs docs media cs led

def run_phase (ex : Executor) (stops : StopChecks)
    (msgs : List (String × String)) (docs media : List (String × List String))
    (d1 d2 : Bool) (contacts : List Contact) (led : Ledger) : Ledger :=
  if contacts.isEmpty then led
  else
    let asg := assignContacts d1 d2 0 contacts led
    workerLoop ex stops msgs docs media asg.2.1
      (workerLoop ex stops msgs docs media asg.1 asg.2.2)

/-- `WhatsAppBlasterGUI._execute_processing_phase` (src/app.py lines
1810-1859), sequential interpretation.  Returns the final ledger and the
list of batches handed to the persister (`_save_pending_updates` skips an
empty ledger).  In the no-driver branch every contact with a non-empty
phone is marked `RETRY` and the ledger is saved without clearing it; in the
normal branch the ledger is cleared, the phase runs, and the result is
saved. -/
def execute_processing_phase (ex : Executor) (stops : StopChecks)
    (msgs : List (String × String)) (docs media : List (String × List String))
    (d1 d2 : Bool) (contacts : List Contact) (led : Ledger) : Ledger × List Ledger :=
  if contacts.isEmpty then (led, [])
  else if !d1 && !d2 then
    let led1 := contacts.foldl
      (fun l c => if ¬ c.phone = "" then ledgerSet l c.phone RETRY else l) led
    (led1, if led1.isEmpty then [] else [led1])
  else
    let led1 := run_phase ex stops msgs docs media d1 d2 contacts []
    (led1, if led1.isEmpty then [] else [led1])

/-! ### Lock-protocol lemmas (C7, C8) -/

/-- A successful attempt: once `is_file_locked` reports unlocked and the
store is structurally sound with no generic failure, the attempt updates the
sheet, saves, and releases the lock. -/
theorem pbu_attempt_success (m : Ledger) (fuel t : Nat) (st st1 : ExcelStore)
    (hl : is_file_locked t st = (false, st1))
    (hc : st1.corrupt = false) (hf : st1.failGeneric = false)
    (sheet : Sheet) (pI sI : Nat)
    (hs : getSheet st1 LIST_SHEET = some sheet)
    (hpI : colIdx sheet.headers PHONE_COL = some pI)
    (hsI : colIdx sheet.headers STATUS_COL = some sI) :
    perform_batch_update_go m (fuel + 1) t st =
      (true, release_lock (setSheet st1 LIST_SHEET (applyUpdates m pI sI sheet))) := by
  simp only [perform_batch_update_go, hl, hs, hpI, hsI]
  rw [if_neg (by simp [hc]), if_neg (by simp [hf])]

/-- C7: lock contention protocol of `perform_batch_update`.  With a marker
younger than 60 time units at every attempt (attempts at `t`, `t+2`, `t+4`),
all 3 attempts find the store locked and the flush fails with the store
untouched.  With a marker already stale at the first attempt, the marker is
removed and the flush proceeds to update the sheet and succeed. -/
theorem perform_batch_update_lock_protocol (t mt : Nat) (st : ExcelStore)
    (m : Ledger) (hm : ¬ m = []) (hlock : st.lock = some mt) :
    (t + 4 ≤ mt + 60 → perform_batch_update t st m = (false, st)) ∧
    (mt + 60 < t → st.corrupt = false → st.failGeneric = false →
      ∀ sheet pI sI, getSheet st LIST_SHEET = some sheet →
        colIdx sheet.headers PHONE_COL = some pI →
        colIdx sheet.headers STATUS_COL = some sI →
        perform_batch_update t st m =
          (true, { st with
              lock := none
              sheets := (LIST_SHEET, applyUpdates m pI sI sheet) :: st.sheets })) := by
  constructor
  · intro hy
    have h1 : ¬ 60 < t - mt := by omega
    have h2 : ¬ 60 < t + 2 - mt := by omega
    have h3 : ¬ 60 < t + 2 + 2 - mt := by omega
    unfold perform_batch_update
    rw [if_neg (by simp [List.isEmpty_iff, hm])]
    simp only [perform_batch_update_go, is_file_locked, hlock, if_neg h1,
      if_neg h2, if_neg h3]
  · intro hst hc hf sheet pI sI hs hpI hsI
    have h1 : 60 < t - mt := by omega
    unfold perform_batch_update
    rw [if_neg (by simp [List.isEmpty_iff, hm])]
    have hl : is_file_locked t st = (false, { st with lock := none }) := by
      simp [is_file_locked, hlock, h1]
    rw [pbu_attempt_success m 2 t st { st with lock := none } hl hc hf sheet pI sI hs hpI hsI]
    rfl

def lockWitnessSheet : Sheet :=
  { headers := [PHONE_COL, STATUS_COL],
    rows := [[Cell.str "123", Cell.num (-1)]] }

def youngLockStore : ExcelStore :=
  { lock := some 0, sheets := [(LIST_SHEET, lockWitnessSheet)],
    corrupt := false, failGeneric := false }

def staleLockStore : ExcelStore :=
  { lock := some 0, sheets := [(LIST_SHEET, lockWitnessSheet)],
    corrupt := false, failGeneric := false }

theorem perform_batch_update_lock_protocol_w :
    perform_batch_update 0 youngLockStore [("123", 2)] = (false, youngLockStore) ∧
    perform_batch_update 100 staleLockStore [("123", 2)] =
      (true, { staleLockStore with
          lock := none
          sheets := (LIST_SHEET, applyUpdates [("123", 2)] 0 1 lockWitnessSheet) ::
            staleLockStore.sheets }) := by
  constructor
  · exact (perform_batch_update_lock_protocol 0 0 youngLockStore [("123", 2)]
      (by decide) rfl).1 (by omega)
  · exact (perform_batch_update_lock_protocol 100 0 staleLockStore [("123", 2)]
      (by decide) rfl).2 (by omega) rfl rfl lockWitnessSheet 0 1 rfl (by decide) (by decide)

/-- C8: the lock is *not* released on every exit path.  Failing input: an
unlocked, structurally sound store whose save step raises a generic
exception.  The first attempt creates the lock marker, the exception is
caught, the code sleeps and retries without releasing; attempts 2 and 3 then
find the flush's own young marker and report "locked"; the flush returns
failure with its marker still on the store (it stays for 60 time units).
The spec says the lock is released unconditionally on every exit path — the
dead `release_lock` call in the last-attempt branch of the exception handler
shows that was the intent, so the code is the slip. -/
def saveErrorStore : ExcelStore :=
  { lock := none
    sheets := [(LIST_SHEET, lockWitnessSheet)]
    corrupt := false
    failGeneric := true }

theorem perform_batch_update_leaks_lock :
    (perform_batch_update 0 saveErrorStore [("123", RETRY)]).1 = false ∧
    (perform_batch_update 0 saveErrorStore [("123", RETRY)]).2.lock = some 0 := by
  constructor
  · decide
  · decide

/-! ### Loader and eligibility lemmas (C10, C5) -/

/-- C10: a loaded row whose status field is absent (no Status column),
blank, or not parseable as a number gets status `PENDING`, which is
eligible for the Initial phase; the other fields of the row play no role. -/
theorem loader_status_defaults_pending :
    (∀ pI mI dI meI r, (parseRow pI mI dI meI none r).status = PENDING) ∧
    (∀ pI mI dI meI i r, to_numeric (getCell r i) = none →
      (parseRow pI mI dI meI (some i) r).status = PENDING) ∧
    to_numeric Cell.blank = none ∧
    to_numeric (Cell.str "") = none ∧
    (∀ c : Contact, c.status = PENDING → eligibleInitialB c = true) := by
  refine ⟨fun _ _ _ _ _ => rfl, ?_, rfl, by decide, ?_⟩
  · intro pI mI dI meI i r h
    simp [parseRow, rowStatus, h]
  · intro c h
    simp [eligibleInitialB, h]

theorem loader_status_defaults_pending_w :
    (parseRow 0 1 2 3 (some 4) [Cell.str "n/a"]).status = PENDING :=
  loader_status_defaults_pending.2.1 0 1 2 3 4 [Cell.str "n/a"] (by decide)

theorem colIdx_inj (hs : List String) :
    ∀ n1 n2 i, colIdx hs n1 = some i → colIdx hs n2 = some i → n1 = n2 := by
  induction hs with
  | nil => intro n1 n2 i h; simp [colIdx] at h
  | cons h tl ih =>
    intro n1 n2 i h1 h2
    simp only [colIdx] at h1 h2
    by_cases e1 : h = n1
    · rw [if_pos e1] at h1
      by_cases e2 : h = n2
      · rw [← e1, ← e2]
      · rw [if_neg e2] at h2
        rw [Option.map_eq_some'] at h2
        obtain ⟨j, _, hj⟩ := h2
        have : i = 0 := by injection h1 with h1'; omega
        omega
    · rw [if_neg e1] at h1
      rw [Option.map_eq_some'] at h1
      obtain ⟨j, hjrec, hj⟩ := h1
      by_cases e2 : h = n2
      · rw [if_pos e2] at h2
        have : i = 0 := by injection h2 with h2'; omega
        omega
      · rw [if_neg e2] at h2
        rw [Option.map_eq_some'] at h2
        obtain ⟨j2, hj2rec, hj2⟩ := h2
        have hjj : j = j2 := by omega
        exact ih n1 n2 j hjrec (hjj ▸ hj2rec)

theorem getCell_set_self (r : List Cell) (i : Nat) (v : Cell) (h : i < r.length) :
    getCell (r.set i v) i = v := by
  simp [getCell, List.getD_eq_getElem?_getD, List.getElem?_set_self h]

theorem getCell_set_ne (r : List Cell) (i j : Nat) (v : Cell) (h : ¬ i = j) :
    getCell (r.set i v) j = getCell r j := by
  simp [getCell, List.getD_eq_getElem?_getD, List.getElem?_set_ne h]

/-- The updated row keeps its phone cell (the update writes only the status
column, a different column). -/
theorem updateRow_phone (m : Ledger) (pI sI : Nat) (r : List Cell)
    (h : ¬ sI = pI) :
    getCell (updateRow m pI sI r) pI = getCell r pI := by
  unfold updateRow
  cases m.lookup (normalize_value (getCell r pI)) with
  | none => rfl
  | some v => simp [getCell_set_ne r sI pI (Cell.num v) h]

/-- C5: Initial eligibility is exactly `{PENDING, RETRY}` over the loaded
contacts; Retry eligibility is exactly `RETRY` over the freshly reloaded
contacts; and a contact whose ledger entry `INVALID` was flushed into the
store reloads with status `INVALID`, hence is absent from the Retry set. -/
theorem phase_eligibility :
    (∀ (cs : List Contact) (c : Contact),
      c ∈ initialEligible cs ↔ c ∈ cs ∧ (c.status = PENDING ∨ c.status = RETRY)) ∧
    (∀ (cs : List Contact) (c : Contact),
      c ∈ retryEligible cs ↔ c ∈ cs ∧ c.status = RETRY) ∧
    (∀ (sh : Sheet) (m : Ledger) (p : String) (pI sI : Nat) (cs : List Contact),
      colIdx sh.headers PHONE_COL = some pI →
      colIdx sh.headers STATUS_COL = some sI →
      (∀ r ∈ sh.rows, sI < r.length) →
      m.lookup p = some INVALID →
      load_contacts (applyUpdates m pI sI sh) = some cs →
      ∀ c ∈ cs, c.phone = p → c.status = INVALID ∧ ¬ c ∈ retryEligible cs) := by
  refine ⟨?_, ?_, ?_⟩
  · intro cs c
    rw [initialEligible, List.mem_filter]
    simp [eligibleInitialB, PENDING, RETRY]
  · intro cs c
    rw [retryEligible, List.mem_filter]
    simp [RETRY]
  · intro sh m p pI sI cs hpI hsI hlen hm hload c hc hphone
    have hSne : ¬ sI = pI := fun e => by
      have := colIdx_inj sh.headers STATUS_COL PHONE_COL pI (e ▸ hsI) hpI
      simp [STATUS_COL, PHONE_COL] at this
    unfold load_contacts at hload
    simp only [show (applyUpdates m pI sI sh).headers = sh.headers from rfl] at hload
    rw [hpI] at hload
    cases hmI : colIdx sh.headers MSG_COL with
    | none => rw [hmI] at hload; simp at hload
    | some mI =>
    rw [hmI] at hload
    cases hdI : colIdx sh.headers DOC_COL with
    | none => rw [hdI] at hload; simp at hload
    | some dI =>
    rw [hdI] at hload
    cases hmeI : colIdx sh.headers MEDIA_COL with
    | none => rw [hmeI] at hload; simp at hload
    | some meI =>
    rw [hmeI] at hload
    simp only [Option.some.injEq] at hload
    subst hload
    rw [List.mem_map] at hc
    obtain ⟨r1, hr1, hc⟩ := hc
    simp only [applyUpdates, List.mem_map] at hr1
    obtain ⟨r0, hr0, hr1eq⟩ := hr1
    subst hr1eq
    subst hc
    have hph : normalize_value (getCell (updateRow m pI sI r0) pI) = p := hphone
    rw [updateRow_phone m pI sI r0 hSne] at hph
    have hupd : updateRow m pI sI r0 = r0.set sI (Cell.num INVALID) := by
      unfold updateRow
      rw [hph, hm]
    have hstat : (parseRow pI mI dI meI (colIdx sh.headers STATUS_COL)
        (updateRow m pI sI r0)).status = INVALID := by
      simp only [parseRow, rowStatus, hsI, hupd]
      rw [getCell_set_self r0 sI (Cell.num INVALID) (hlen r0 hr0)]
      rfl
    refine ⟨hstat, ?_⟩
    intro hmem
    rw [retryEligible, List.mem_filter] at hmem
    rw [hstat] at hmem
    simp [INVALID, RETRY] at hmem

def eligWitnessSheet : Sheet :=
  { headers := [PHONE_COL, MSG_COL, DOC_COL, MEDIA_COL, STATUS_COL]
    rows := [[Cell.str "123", Cell.str "0", Cell.str "0", Cell.str "0", Cell.num 2]] }

theorem phase_eligibility_w :
    (⟨"123", "0", "0", "0", RETRY⟩ : Contact) ∈
      initialEligible [⟨"123", "0", "0", "0", RETRY⟩] ∧
    ((⟨"123", "0", "0", "0", INVALID⟩ : Contact).status = INVALID ∧
      ¬ (⟨"123", "0", "0", "0", INVALID⟩ : Contact) ∈
        retryEligible [⟨"123", "0", "0", "0", INVALID⟩]) := by
  constructor
  · exact (phase_eligibility.1 [⟨"123", "0", "0", "0", RETRY⟩]
      ⟨"123", "0", "0", "0", RETRY⟩).mpr ⟨by decide, Or.inr rfl⟩
  · exact phase_eligibility.2.2 eligWitnessSheet [("123", INVALID)] "123" 0 4
      [⟨"123", "0", "0", "0", INVALID⟩] (by decide) (by decide)
      (by intro r hr; simp [eligWitnessSheet] at hr; simp [hr]) (by decide)
      (by decide) ⟨"123", "0", "0", "0", INVALID⟩ (by decide) rfl

/-! ### Pre-registration and the no-lane fail-safe (C3, C1) -/

theorem lookup_ledgerSet_retry (led : Ledger) (k p : String)
    (h : led.lookup p = some RETRY) :
    (ledgerSet led k RETRY).lookup p = some RETRY := by
  unfold ledgerSet
  by_cases e : p = k
  · simp [List.lookup, e]
  · simp [List.lookup, beq_false_of_ne e, h]

theorem assignContacts_ledger_cons (d1 d2 : Bool) (i : Nat) (c : Contact)
    (cs : List Contact) (led : Ledger) :
    (assignContacts d1 d2 i (c :: cs) led).2.2 =
      (assignContacts d1 d2 (i + 1) cs (ledgerSet led c.phone RETRY)).2.2 := by
  simp only [assignContacts]
  split
  · rfl
  · split
    · rfl
    · split
      · rfl
      · rfl

theorem assignContacts_preserves (d1 d2 : Bool) (p : String) :
    ∀ (cs : List Contact) (i : Nat) (led : Ledger),
      led.lookup p = some RETRY →
      ((assignContacts d1 d2 i cs led).2.2).lookup p = some RETRY := by
  intro cs
  induction cs with
  | nil => intro i led h; exact h
  | cons c cs ih =>
    intro i led h
    rw [assignContacts_ledger_cons]
    exact ih (i + 1) _ (lookup_ledgerSet_retry led c.phone p h)

/-- C3: during queue population — before the worker threads are started and
hence before any lane dequeues a contact — every contact of the batch is
registered `RETRY` in the ledger (`run_phase` hands exactly this ledger,
`(assignContacts d1 d2 0 contacts led).2.2`, to the workers). -/
theorem assignContacts_preregisters_retry (d1 d2 : Bool)
    (contacts : List Contact) (led : Ledger) (i : Nat) :
    ∀ c ∈ contacts,
      ((assignContacts d1 d2 i contacts led).2.2).lookup c.phone = some RETRY := by
  induction contacts generalizing i led with
  | nil => intro c hc; simp at hc
  | cons c0 cs ih =>
    intro c hc
    rw [assignContacts_ledger_cons]
    rcases List.mem_cons.mp hc with hc1 | hc1
    · subst hc1
      apply assignContacts_preserves
      simp [ledgerSet, List.lookup]
    · exact ih (ledgerSet led c0.phone RETRY) (i + 1) c hc1

theorem assignContacts_preregisters_retry_w :
    ((assignContacts true false 0 [⟨"123", "0", "0", "0", RETRY⟩] []).2.2).lookup "123"
      = some RETRY :=
  assignContacts_preregisters_retry true false [⟨"123", "0", "0", "0", RETRY⟩] [] 0
    ⟨"123", "0", "0", "0", RETRY⟩ (by decide)

/-- Every write of the no-driver fold is `RETRY`, so existing `RETRY`
entries survive. -/
theorem markAll_preserves (p : String) :
    ∀ (cs : List Contact) (led : Ledger),
      led.lookup p = some RETRY →
      (cs.foldl (fun l c => if ¬ c.phone = "" then ledgerSet l c.phone RETRY else l)
        led).lookup p = some RETRY := by
  intro cs
  induction cs with
  | nil => intro led h; exact h
  | cons c cs ih =>
    intro led h
    simp only [List.foldl_cons]
    by_cases e : c.phone = ""
    · rw [if_neg (by simp [e])]
      exact ih led h
    · rw [if_pos e]
      exact ih _ (lookup_ledgerSet_retry led c.phone p h)

theorem markAll_marks :
    ∀ (cs : List Contact) (led : Ledger) (c : Contact), c ∈ cs → ¬ c.phone = "" →
      (cs.foldl (fun l c => if ¬ c.phone = "" then ledgerSet l c.phone RETRY else l)
        led).lookup c.phone = some RETRY := by
  intro cs
  induction cs with
  | nil => intro led c hc; simp at hc
  | cons c0 cs ih =>
    intro led c hc hph
    simp only [List.foldl_cons]
    rcases List.mem_cons.mp hc with hc1 | hc1
    · subst hc1
      rw [if_pos hph]
      apply markAll_preserves
      simp [ledgerSet, List.lookup]
    · by_cases e : c0.phone = ""
      · rw [if_neg (by simp [e])]
        exact ih led c hc1 hph
      · rw [if_pos e]
        exact ih _ c hc1 hph

theorem ledgerSet_ne_nil (led : Ledger) (k : String) (v : Int) :
    ¬ ledgerSet led k v = [] := by
  simp [ledgerSet]

theorem markAll_ne_nil :
    ∀ (cs : List Contact) (led : Ledger), ¬ led = [] →
      ¬ (cs.foldl (fun l c => if ¬ c.phone = "" then ledgerSet l c.phone RETRY else l)
        led) = [] := by
  intro cs
  induction cs with
  | nil => intro led h; exact h
  | cons c cs ih =>
    intro led h
    simp only [List.foldl_cons]
    by_cases e : c.phone = ""
    · rw [if_neg (by simp [e])]
      exact ih led h
    · rw [if_pos e]
      exact ih _ (ledgerSet_ne_nil led c.phone RETRY)

/-- C1: when neither lane has a live driver, the phase executor records
every contact of the batch (every contact has a phone identity) as `RETRY`
in the ledger, hands exactly that ledger to the persister before returning,
and flushing it against a sound, unlocked store succeeds and writes `RETRY`
into the status cell of every sheet row whose normalized phone matches a
batch contact. -/
theorem no_live_lane_failsafe (ex : Executor) (stops : StopChecks)
    (msgs : List (String × String)) (docs media : List (String × List String))
    (contacts : List Contact) (led : Ledger)
    (hne : ¬ contacts = [])
    (hph : ∀ c ∈ contacts, ¬ c.phone = "") :
    (∀ c ∈ contacts,
      (execute_processing_phase ex stops msgs docs media false false contacts led).1.lookup
        c.phone = some RETRY) ∧
    (execute_processing_phase ex stops msgs docs media false false contacts led).2 =
      [(execute_processing_phase ex stops msgs docs media false false contacts led).1] ∧
    (∀ (t : Nat) (st : ExcelStore) (sheet : Sheet) (pI sI : Nat),
      st.lock = none → st.corrupt = false → st.failGeneric = false →
      getSheet st LIST_SHEET = some sheet →
      colIdx sheet.headers PHONE_COL = some pI →
      colIdx sheet.headers STATUS_COL = some sI →
      (perform_batch_update t st
        (execute_processing_phase ex stops msgs docs media false false contacts led).1).1
          = true ∧
      (∀ r ∈ sheet.rows, sI < r.length → ∀ c ∈ contacts,
        normalize_value (getCell r pI) = c.phone →
        getCell (updateRow
          (execute_processing_phase ex stops msgs docs media false false contacts led).1
          pI sI r) sI = Cell.num RETRY)) := by
  have hceq : execute_processing_phase ex stops msgs docs media false false contacts led =
      (contacts.foldl
        (fun l c => if ¬ c.phone = "" then ledgerSet l c.phone RETRY else l) led,
       if (contacts.foldl
          (fun l c => if ¬ c.phone = "" then ledgerSet l c.phone RETRY else l) led).isEmpty
       then [] else
        [contacts.foldl
          (fun l c => if ¬ c.phone = "" then ledgerSet l c.phone RETRY else l) led]) := by
    unfold execute_processing_phase
    rw [if_neg (by simp [List.isEmpty_iff, hne])]
    rfl
  obtain ⟨c0, cs0, rfl⟩ := List.exists_cons_of_ne_nil hne
  have hnempty : ¬ ((c0 :: cs0).foldl
      (fun l c => if ¬ c.phone = "" then ledgerSet l c.phone RETRY else l) led) = [] := by
    simp only [List.foldl_cons]
    rw [if_pos (hph c0 (List.mem_cons_self _ _))]
    exact markAll_ne_nil cs0 _ (ledgerSet_ne_nil led c0.phone RETRY)
  have hmarked : ∀ c ∈ c0 :: cs0,
      ((c0 :: cs0).foldl
        (fun l c => if ¬ c.phone = "" then ledgerSet l c.phone RETRY else l) led).lookup
        c.phone = some RETRY :=
    fun c hc => markAll_marks (c0 :: cs0) led c hc (hph c hc)
  have hfst : (execute_processing_phase ex stops msgs docs media false false
      (c0 :: cs0) led).1 =
      (c0 :: cs0).foldl
        (fun l c => if ¬ c.phone = "" then ledgerSet l c.phone RETRY else l) led :=
    congrArg Prod.fst hceq
  have hnem : ¬ ((execute_processing_phase ex stops msgs docs media false false
      (c0 :: cs0) led).1.isEmpty = true) := by
    rw [hfst]
    exact fun h => hnempty (List.isEmpty_iff.mp h)
  refine ⟨?_, ?_, ?_⟩
  · intro c hc
    rw [hfst]
    exact hmarked c hc
  · rw [hceq]
    exact if_neg (fun h => hnempty (List.isEmpty_iff.mp h))
  · intro t st sheet pI sI hlock hc hf hs hpI hsI
    constructor
    · have hsucc : perform_batch_update t st
          (execute_processing_phase ex stops msgs docs media false false (c0 :: cs0) led).1
          = (true, release_lock (setSheet { st with lock := some t } LIST_SHEET
              (applyUpdates (execute_processing_phase ex stops msgs docs media false false
                (c0 :: cs0) led).1 pI sI sheet))) := by
        unfold perform_batch_update
        rw [if_neg hnem]
        exact pbu_attempt_success _ 2 t st { st with lock := some t }
          (by simp [is_file_locked, hlock]) (by simp [hc]) (by simp [hf])
          sheet pI sI hs hpI hsI
      rw [hsucc]
    · intro r _ hrlen c hcmem hmatch
      unfold updateRow
      rw [hmatch, hceq]
      rw [hmarked c hcmem]
      exact getCell_set_self r sI (Cell.num RETRY) hrlen

theorem no_live_lane_failsafe_w :
    ((execute_processing_phase ⟨fun _ _ => SendRes.sent, fun _ _ _ => true⟩
      ⟨false, false, false, false⟩ [] [] [] false false
      [⟨"123", "0", "0", "0", RETRY⟩] []).1.lookup "123" = some RETRY) :=
  (no_live_lane_failsafe ⟨fun _ _ => SendRes.sent, fun _ _ _ => true⟩
    ⟨false, false, false, false⟩ [] [] [] [⟨"123", "0", "0", "0", RETRY⟩] []
    (by decide) (by intro c hc; simp at hc; simp [hc])).1
    ⟨"123", "0", "0", "0", RETRY⟩ (by decide)

/-! ### Worker-lane outcome classification (C4) -/

/-- C4: for a contact whose text send is performed (validation passed, a
message is requested, no cancellation observed): executor `INVALID` makes
the recorded status `INVALID` and `FAILED` makes it `RETRY` — in both cases
for *every* attach behaviour, i.e. no attachment operation influences the
outcome — and the final status is `SENT` exactly when the text send
reported `SENT` and every requested attachment operation returned `true`.
An earlier `INVALID`/`RETRY` determination is never overridden. -/
theorem process_contact_outcomes (ex : Executor) (stops : StopChecks) (c : Contact)
    (msgs : List (String × String)) (docs media : List (String × List String))
    (tmpl : String)
    (h0 : stops.s0 = false) (h1 : stops.s1 = false)
    (h2 : stops.s2 = false) (h3 : stops.s3 = false)
    (hp : ¬ c.phone = "")
    (hm0 : ¬ c.msgCode = "0")
    (hmt : msgs.lookup c.msgCode = some tmpl)
    (hmne : ¬ tmpl = "")
    (hdoc : ¬ c.docCode = "0" → (docs.lookup c.docCode).isSome)
    (hmed : ¬ c.mediaCode = "0" → (media.lookup c.mediaCode).isSome) :
    (ex.sendText c.phone tmpl = SendRes.invalid →
      process_contact ex stops c msgs docs media = some (c.phone, INVALID)) ∧
    (ex.sendText c.phone tmpl = SendRes.failed →
      process_contact ex stops c msgs docs media = some (c.phone, RETRY)) ∧
    (ex.sendText c.phone tmpl = SendRes.sent →
      (process_contact ex stops c msgs docs media = some (c.phone, SENT) ↔
        ((¬ c.docCode = "0" ∧ ¬ ((docs.lookup c.docCode).getD []).isEmpty = true) →
          ex.attach c.phone ((docs.lookup c.docCode).getD []) "DOCS" = true) ∧
        ((¬ c.mediaCode = "0" ∧ ¬ ((media.lookup c.mediaCode).getD []).isEmpty = true) →
          ex.attach c.phone ((media.lookup c.mediaCode).getD []) "MEDIA" = true))) := by
  have hdA : c.docCode = "0" ∨ ∃ dl, docs.lookup c.docCode = some dl := by
    by_cases hd0 : c.docCode = "0"
    · exact Or.inl hd0
    · exact Or.inr (Option.isSome_iff_exists.mp (hdoc hd0))
  have hmA : c.mediaCode = "0" ∨ ∃ ml, media.lookup c.mediaCode = some ml := by
    by_cases hm0m : c.mediaCode = "0"
    · exact Or.inl hm0m
    · exact Or.inr (Option.isSome_iff_exists.mp (hmed hm0m))
  refine ⟨?_, ?_, ?_⟩ <;>
    intro hsend <;>
    rcases hdA with hd0 | ⟨dl, hdl⟩ <;> rcases hmA with hm0m | ⟨ml, hml⟩ <;>
    simp_all [process_contact, PENDING, RETRY, INVALID, SENT] <;>
    (try (split_ifs <;> simp_all)) <;> (try tauto)

theorem process_contact_outcomes_w :
    process_contact ⟨fun _ _ => SendRes.failed, fun _ _ _ => true⟩
      ⟨false, false, false, false⟩ ⟨"123", "M1", "0", "0", RETRY⟩
      [("M1", "hi")] [] [] = some ("123", RETRY) :=
  (process_contact_outcomes ⟨fun _ _ => SendRes.failed, fun _ _ _ => true⟩
    ⟨false, false, false, false⟩ ⟨"123", "M1", "0", "0", RETRY⟩
    [("M1", "hi")] [] [] "hi" rfl rfl rfl rfl (by decide) (by decide) (by decide)
    (by decide) (fun h => absurd rfl h) (fun h => absurd rfl h)).2.1 rfl

end WABlaster
